import Mathlib

/-
Verification development for the metify speedups module
(src/metify/_speedups.pyx): field access, per-field validation and
serialization, batch processing, the type-validator registry, the
instance memory pool and the caching field descriptor.

Modelling conventions.
Python runtime values are the inductive type Value; the distinguished
singletons None and _MISSING are the constructors Value.none and
Value.missing.  Heap identity of objects produced at run time is a
natural number carried by the value (Value.obj, Value.factoryRef); a
counter ctr is threaded through every operation that can allocate, so
two allocations at different counter states are distinct objects.
Instances are finite attribute maps plus an identity (the Python id of
the object).  Exceptions are the inductive PyErr; fallible operations
return Except PyErr.  Python dicts are association lists whose update
overwrites in place (dictSet) and whose lookup takes the first hit
(dictGet); dict iteration order is list order, matching insertion order.
-/

/-- Python runtime values.  Value.none is the None singleton and
Value.missing is the _MISSING sentinel from metify.core._meta; obj and
factoryRef carry the heap identity of the object they denote. -/
inductive Value where
  | none
  | missing
  | int (n : Int)
  | str (s : String)
  | obj (ident : Nat)
  | factoryRef (ident : Nat)
deriving DecidableEq, Repr

/-- Python exceptions, by constructor kind: AttributeError, ValueError
and any other exception class (carried by class name). -/
inductive PyErr where
  | attributeError (msg : String)
  | valueError (msg : String)
  | other (ty : String) (msg : String)
deriving DecidableEq, Repr

/-- str(e) for an exception e: its message text. -/
def msgOf : PyErr → String
  | .attributeError m => m
  | .valueError m => m
  | .other _ m => m

abbrev ValidatorFn := Value → Except PyErr Value

abbrev SerializerFn := Value → Except PyErr Value

/-- A default-value factory: a callable object with heap identity
ident whose call, at allocation counter c, returns run c.  Factories
returning mutable values return distinct objects at distinct counters. -/
structure Factory where
  ident : Nat
  run : Nat → Value

/-- Modelled from the spec: MetaField lives in metify.core._meta, which
is not part of the given sources.  Per the spec data model, a FieldSpec
carries a declared type, an optional validator, an optional serializer
and an optional default-value factory. -/
structure MetaField where
  type : Nat
  validator : Option ValidatorFn
  serializer : Option SerializerFn
  default : Option Factory

/-- Modelled from the spec: field.has_default() tells whether a default
factory is configured. -/
def MetaField.has_default (f : MetaField) : Bool :=
  f.default.isSome

/-- Modelled from the spec: field.produce() invokes the default factory
and returns a freshly produced value; the allocation counter advances. -/
def MetaField.produce (f : MetaField) (ctr : Nat) : Value × Nat :=
  match f.default with
  | some d => (d.run ctr, ctr + 1)
  | none => (Value.none, ctr)

/-- First-hit lookup in an association list: Python dict lookup (keys
are unique in a real dict, so first hit is the hit). -/
def dictGet {α β : Type} [DecidableEq α] (k : α) : List (α × β) → Option β
  | [] => none
  | (a, b) :: rest => if a = k then some b else dictGet k rest

/-- In-place overwrite in an association list: Python dict assignment
d[k] = v. -/
def dictSet {α β : Type} [DecidableEq α] (l : List (α × β)) (k : α) (v : β) :
    List (α × β) :=
  match l with
  | [] => [(k, v)]
  | (a, b) :: rest => if a = k then (k, v) :: rest else (a, b) :: dictSet rest k v

/-- A model instance: Python id plus the instance attribute dict. -/
structure ModelInstance where
  ident : Nat
  attrs : List (String × Value)
deriving DecidableEq, Repr

/-- PyObject_GetAttr: the attribute value, or AttributeError when the
attribute is absent. -/
def getAttrE (obj : ModelInstance) (name : String) : Except PyErr Value :=
  match dictGet name obj.attrs with
  | some v => .ok v
  | none => .error (.attributeError name)

/-- setattr / PyObject_SetAttr on a plain instance: store the value
under the name (overwriting any previous binding). -/
def setAttr (obj : ModelInstance) (name : String) (v : Value) : ModelInstance :=
  { obj with attrs := dictSet obj.attrs name v }

/-- FastFieldAccess.get_attr_fast: PyObject_GetAttr with the
AttributeError caught and turned into the supplied default. -/
def get_attr_fast (obj : ModelInstance) (name : String) (default : Value) : Value :=
  match dictGet name obj.attrs with
  | some v => v
  | none => default

/-- FieldValidator.validate_with_type_check: identity when no validator
is configured; otherwise the validator runs and any failure is
re-raised as ValueError with message "Validation failed: " followed by
str(e). -/
def validate_with_type_check (value : Value) (field_type : Nat)
    (validator : Option ValidatorFn) : Except PyErr Value :=
  match validator with
  | none => .ok value
  | some vf =>
    match vf value with
    | .ok r => .ok r
    | .error e => .error (.valueError ("Validation failed: " ++ msgOf e))

/-- fast_validate: returns the value unchanged when field.validator is
None, otherwise defers to validate_with_type_check. -/
def fast_validate (value : Value) (field : MetaField) : Except PyErr Value :=
  match field.validator with
  | none => .ok value
  | some _ => validate_with_type_check value field.type field.validator

/-- FieldSerializer.serialize_value: identity when no serializer is
configured; failures re-raised as ValueError with message
"Serialization failed: " followed by str(e). -/
def serialize_value (value : Value) (serializer : Option SerializerFn) :
    Except PyErr Value :=
  match serializer with
  | none => .ok value
  | some s =>
    match s value with
    | .ok r => .ok r
    | .error e => .error (.valueError ("Serialization failed: " ++ msgOf e))

/-- fast_serialize: returns the value unchanged when field.serializer
is None, otherwise defers to serialize_value. -/
def fast_serialize (value : Value) (field : MetaField) : Except PyErr Value :=
  match field.serializer with
  | none => .ok value
  | some _ => serialize_value value field.serializer

/-- One field of BatchProcessor.validate_batch on one object: skip
unless a validator is configured; read via get_attr_fast with the
_MISSING default; when present, validate and write back; every failure
inside the try block is swallowed, leaving the object as it was. -/
def validateField (obj : ModelInstance) (field_name : String) (field : MetaField) :
    ModelInstance :=
  match field.validator with
  | none => obj
  | some _ =>
    let value := get_attr_fast obj field_name Value.missing
    if value = Value.missing then obj
    else
      match validate_with_type_check value field.type field.validator with
      | .ok validated => setAttr obj field_name validated
      | .error _ => obj

/-- The inner field loop of validate_batch over one object, in field
table order. -/
def validateObj (obj : ModelInstance) (fields : List (String × MetaField)) :
    ModelInstance :=
  fields.foldl (fun o p => validateField o p.1 p.2) obj

/-- BatchProcessor.validate_batch: each object runs the field loop and
is appended to the results, preserving input order. -/
def validate_batch (objects : List ModelInstance)
    (fields : List (String × MetaField)) : List ModelInstance :=
  objects.map (fun obj => validateObj obj fields)

/-- Tail of one serialize_batch field step, after the value has been
resolved past the default stage: the exclude_none check, then the
serializer (failures drop the field). -/
def serializeFinal (field : MetaField) (v : Value) (exclude_none : Bool)
    (ctr : Nat) : Option Value × Nat :=
  if exclude_none = true ∧ v = Value.none then (none, ctr)
  else
    match field.serializer with
    | none => (some v, ctr)
    | some s =>
      match s v with
      | .ok r => (some r, ctr)
      | .error _ => (none, ctr)

/-- Middle of one serialize_batch field step: a value already coerced
to _MISSING when it was None; when _MISSING, a configured default is
produced (advancing the counter) or the field is dropped. -/
def serializeResolved (field : MetaField) (v : Value) (exclude_none : Bool)
    (ctr : Nat) : Option Value × Nat :=
  if v = Value.missing then
    match field.default with
    | some d => serializeFinal field (d.run ctr) exclude_none (ctr + 1)
    | none => (none, ctr)
  else serializeFinal field v exclude_none ctr

/-- One field of BatchProcessor.serialize_batch on one object:
PyObject_GetAttr raises for an absent attribute and the broad except
clause drops the field; a present value equal to None is coerced to
_MISSING before the default stage.  Returns the value to store (none
means the field is skipped) and the advanced allocation counter. -/
def serializeField (obj : ModelInstance) (field_name : String) (field : MetaField)
    (exclude_none : Bool) (ctr : Nat) : Option Value × Nat :=
  match dictGet field_name obj.attrs with
  | none => (none, ctr)
  | some v0 =>
    serializeResolved field (if v0 = Value.none then Value.missing else v0)
      exclude_none ctr

/-- One step of the field fold building obj_dict for one object. -/
def serializeObjStep (obj : ModelInstance) (exclude_none : Bool)
    (acc : List (String × Value) × Nat) (p : String × MetaField) :
    List (String × Value) × Nat :=
  match serializeField obj p.1 p.2 exclude_none acc.2 with
  | (none, c) => (acc.1, c)
  | (some v, c) => (dictSet acc.1 p.1 v, c)

/-- The field loop of serialize_batch for one object, from a given
obj_dict and counter. -/
def serializeObjFrom (obj : ModelInstance) (fields : List (String × MetaField))
    (exclude_none : Bool) (acc : List (String × Value) × Nat) :
    List (String × Value) × Nat :=
  fields.foldl (serializeObjStep obj exclude_none) acc

/-- The per-object body of serialize_batch: builds obj_dict in field
table order starting from the empty dict. -/
def serializeObj (obj : ModelInstance) (fields : List (String × MetaField))
    (exclude_none : Bool) (ctr : Nat) : List (String × Value) × Nat :=
  serializeObjFrom obj fields exclude_none ([], ctr)

/-- BatchProcessor.serialize_batch: one output dict per input object,
in input order, threading the allocation counter. -/
def serialize_batch (objects : List ModelInstance)
    (fields : List (String × MetaField)) (exclude_none : Bool) (ctr : Nat) :
    List (List (String × Value)) × Nat :=
  objects.foldl (fun acc obj =>
    match serializeObj obj fields exclude_none acc.2 with
    | (m, c) => (acc.1 ++ [m], c)) ([], ctr)

abbrev TypeRef := Nat

/-- TypeDispatcher.register_type_validator: dict assignment into
TYPE_VALIDATORS; last write wins. -/
def register_type_validator (reg : List (TypeRef × ValidatorFn)) (t : TypeRef)
    (v : ValidatorFn) : List (TypeRef × ValidatorFn) :=
  dictSet reg t v

/-- TypeDispatcher.get_type_validator: TYPE_VALIDATORS.get, an
exact-key dict lookup with no inheritance walk. -/
def get_type_validator (reg : List (TypeRef × ValidatorFn)) (t : TypeRef) :
    Option ValidatorFn :=
  dictGet t reg

/-- MemoryPool state: the free list (head of the list is the Python
list end, where pop and append operate), the capacity and the
_field_defaults dict captured at construction. -/
structure MemoryPool where
  pool : List ModelInstance
  max_size : Nat
  field_defaults : List (String × Factory)

/-- MemoryPool.__init__ over a model class whose _fields dict is
model_fields: an empty free list and, for every field with a default,
the factory object field.default stored in _field_defaults. -/
def mkMemoryPool (model_fields : List (String × MetaField)) (max_size : Nat) :
    MemoryPool :=
  let defaults := model_fields.foldl (fun acc p =>
    match p.2.default with
    | some d => dictSet acc p.1 d
    | none => acc) []
  { pool := [], max_size := max_size, field_defaults := defaults }

/-- MemoryPool.acquire.  Pool hit: pop the most recently released
instance and setattr each _field_defaults entry onto it; the stored
value is the factory object itself (setattr of default, not of a
produced value), so the counter does not advance and no factory runs.
Pool miss: object.__new__, a raw allocation with a fresh identity, no
initializer and no attributes. -/
def MemoryPool.acquire (p : MemoryPool) (ctr : Nat) :
    ModelInstance × MemoryPool × Nat :=
  match p.pool with
  | [] => ({ ident := ctr, attrs := [] }, p, ctr + 1)
  | inst :: rest =>
    (p.field_defaults.foldl (fun o q => setAttr o q.1 (Value.factoryRef q.2.ident)) inst,
     { p with pool := rest }, ctr)

/-- The attribute strip in MemoryPool.release: every attribute whose
name does not start with an underscore and is not a key of
_field_defaults is deleted. -/
def stripForPool (obj : ModelInstance) (field_defaults : List (String × Factory)) :
    ModelInstance :=
  { obj with
    attrs := obj.attrs.filter fun q =>
      q.1.startsWith "_" || (dictGet q.1 field_defaults).isSome }

/-- MemoryPool.release: below capacity, strip and push; at capacity,
drop the instance and leave the pool unchanged. -/
def MemoryPool.release (p : MemoryPool) (obj : ModelInstance) : MemoryPool :=
  if p.pool.length < p.max_size then
    { p with pool := stripForPool obj p.field_defaults :: p.pool }
  else p

/-- MemoryPool.clear: empty the free list. -/
def MemoryPool.clear (p : MemoryPool) : MemoryPool :=
  { p with pool := [] }

/-- MemoryPool.size: the free count. -/
def MemoryPool.size (p : MemoryPool) : Nat :=
  p.pool.length

/-- One abstract client step against a pool: an acquire (returned
instance discarded), a release of some instance, or a clear. -/
inductive PoolOp where
  | acquireOp
  | releaseOp (obj : ModelInstance)
  | clearOp

/-- Run one pool operation on a pool-and-counter state. -/
def runPoolOp (s : MemoryPool × Nat) (op : PoolOp) : MemoryPool × Nat :=
  match op with
  | .acquireOp =>
    match s.1.acquire s.2 with
    | (_, p, c) => (p, c)
  | .releaseOp obj => (s.1.release obj, s.2)
  | .clearOp => (s.1.clear, s.2)

/-- Run an interleaving of pool operations. -/
def runPoolOps (s : MemoryPool × Nat) (ops : List PoolOp) : MemoryPool × Nat :=
  ops.foldl runPoolOp s

/-- One release(acquire()) round trip. -/
def roundTrip (s : MemoryPool × Nat) : MemoryPool × Nat :=
  match s.1.acquire s.2 with
  | (inst, p, c) => (p.release inst, c)

/-- n sequential release(acquire()) round trips. -/
def roundTrips (s : MemoryPool × Nat) : Nat → MemoryPool × Nat
  | 0 => s
  | n + 1 => roundTrips (roundTrip s) n

/-- OptimizedDescriptor state: the bound field name, its MetaField and
the id-keyed cache dict. -/
structure OptimizedDescriptor where
  name : String
  field : MetaField
  cache : List (Nat × Value)

/-- OptimizedDescriptor.__get__: cache hit returns the cached value;
otherwise the shadow attribute (the name with an underscore prepended)
is read and cached; when absent, a configured default is produced,
stored as the shadow attribute, cached and returned, else
AttributeError.  Returns the value with the updated descriptor,
instance and counter. -/
def descGet (d : OptimizedDescriptor) (obj : ModelInstance) (ctr : Nat) :
    Except PyErr (Value × OptimizedDescriptor × ModelInstance × Nat) :=
  match dictGet obj.ident d.cache with
  | some v => .ok (v, d, obj, ctr)
  | none =>
    match dictGet ("_" ++ d.name) obj.attrs with
    | some v => .ok (v, { d with cache := dictSet d.cache obj.ident v }, obj, ctr)
    | none =>
      match d.field.default with
      | some f =>
        .ok (f.run ctr,
             { d with cache := dictSet d.cache obj.ident (f.run ctr) },
             setAttr obj ("_" ++ d.name) (f.run ctr), ctr + 1)
      | none => .error (.attributeError ("has no attribute " ++ d.name))

/-- OptimizedDescriptor.__set__: a configured validator runs first and
its failure propagates unwrapped, aborting the write; otherwise the
validated value is written to the shadow attribute and the cache entry
for the instance id is replaced. -/
def descSet (d : OptimizedDescriptor) (obj : ModelInstance) (value : Value) :
    Except PyErr (OptimizedDescriptor × ModelInstance) :=
  match d.field.validator with
  | none =>
    .ok ({ d with cache := dictSet d.cache obj.ident value },
         setAttr obj ("_" ++ d.name) value)
  | some vf =>
    match vf value with
    | .error e => .error e
    | .ok v2 =>
      .ok ({ d with cache := dictSet d.cache obj.ident v2 },
           setAttr obj ("_" ++ d.name) v2)

/-- OptimizedDescriptor.clear_cache: drop every cached entry. -/
def clear_cache (d : OptimizedDescriptor) : OptimizedDescriptor :=
  { d with cache := [] }

/-
Concrete fixtures used by witnesses and counterexamples.
-/

/-- The age validator of the spec scenario: fails on negative ints. -/
def cAgeValidator : ValidatorFn := fun v =>
  match v with
  | Value.int n =>
    if n < 0 then Except.error (PyErr.valueError "age must be non-negative")
    else Except.ok v
  | _ => Except.ok v

/-- The age default factory of the spec scenario: always returns 0. -/
def cAgeFactory : Factory := { ident := 0, run := fun _ => Value.int 0 }

/-- The age field of the spec scenario. -/
def cAgeField : MetaField :=
  { type := 0, validator := some cAgeValidator, serializer := none,
    default := some cAgeFactory }

/-- A default factory whose values are mutable objects: each invocation
returns a distinct heap object. -/
def cObjFactory : Factory := { ident := 5, run := fun c => Value.obj c }

/-- A field whose only configuration is the mutable-object default. -/
def cXField : MetaField :=
  { type := 0, validator := none, serializer := none, default := some cObjFactory }

/-- A pool over a model with the single defaulted field x, capacity 2,
after two empty instances have been released into it. -/
def cPoolDemo : MemoryPool :=
  ((mkMemoryPool [("x", cXField)] 2).release { ident := 10, attrs := [] }).release
    { ident := 11, attrs := [] }

/-- First acquire from the demo pool. -/
def cAcquire1 : ModelInstance × MemoryPool × Nat := cPoolDemo.acquire 0

/-- Second acquire from the demo pool. -/
def cAcquire2 : ModelInstance × MemoryPool × Nat := cAcquire1.2.1.acquire cAcquire1.2.2

/-- A validator that raises RuntimeError "boom" on every input. -/
def cBoomValidator : ValidatorFn := fun _ =>
  Except.error (PyErr.other "RuntimeError" "boom")

/-- A field carrying the always-raising validator. -/
def cBoomField : MetaField :=
  { type := 0, validator := some cBoomValidator, serializer := none, default := none }

/-- Another always-raising validator, for the batch fixture. -/
def cRaiseValidator : ValidatorFn := fun _ =>
  Except.error (PyErr.other "TypeError" "rejected")

/-- A field carrying cRaiseValidator. -/
def cRaiseField : MetaField :=
  { type := 0, validator := some cRaiseValidator, serializer := none, default := none }

/-- An instance whose age attribute is -5. -/
def cInstNeg : ModelInstance := { ident := 0, attrs := [("age", Value.int (-5))] }

/-- A field with a default and no validator, for the descriptor fixture. -/
def cDescField : MetaField :=
  { type := 0, validator := none, serializer := none, default := some cAgeFactory }

/-- A fresh descriptor bound to the name age over cDescField. -/
def cDesc : OptimizedDescriptor := { name := "age", field := cDescField, cache := [] }

/-- A bare instance for the descriptor fixture. -/
def cObjDesc : ModelInstance := { ident := 1, attrs := [] }

/-- An accept-everything validator for the registry fixture. -/
def cRegValidator : ValidatorFn := fun x => Except.ok x

/-- A field with nothing configured. -/
def cPlainField : MetaField :=
  { type := 0, validator := none, serializer := none, default := none }

/-- A field with no validator (serializer present, irrelevant to
validate_batch). -/
def cFrameField : MetaField :=
  { type := 0, validator := none, serializer := some (fun x => Except.ok x),
    default := none }

/-- An instance holding attribute a, for the frame fixture. -/
def cFrameInst : ModelInstance := { ident := 0, attrs := [("a", Value.int 1)] }

/-
Helper lemmas about the dict model and the building blocks.
-/

theorem listMapCongr {α β : Type} (f g : α → β) :
    ∀ l : List α, (∀ a ∈ l, f a = g a) → l.map f = l.map g := by
  intro l
  induction l with
  | nil => intro h; rfl
  | cons a rest ih =>
    intro h
    simp only [List.map_cons]
    rw [h a (List.mem_cons_self a rest), ih (fun b hb => h b (List.mem_cons_of_mem a hb))]

theorem dictGet_dictSet_self {α β : Type} [DecidableEq α]
    (l : List (α × β)) (k : α) (v : β) :
    dictGet k (dictSet l k v) = some v := by
  induction l with
  | nil => simp [dictGet, dictSet]
  | cons p rest ih =>
    obtain ⟨a, b⟩ := p
    by_cases h : a = k
    · simp [dictGet, dictSet, h]
    · simp [dictGet, dictSet, h, ih]

theorem dictGet_dictSet_ne {α β : Type} [DecidableEq α]
    (l : List (α × β)) (k k2 : α) (v : β) (h : k ≠ k2) :
    dictGet k2 (dictSet l k v) = dictGet k2 l := by
  induction l with
  | nil => simp [dictGet, dictSet, h]
  | cons p rest ih =>
    obtain ⟨a, b⟩ := p
    by_cases ha : a = k
    · subst ha
      simp [dictGet, dictSet, h]
    · by_cases hb : a = k2
      · subst hb
        simp [dictGet, dictSet, ha]
      · simp [dictGet, dictSet, ha, hb, ih]

theorem dictGet_unique {α β : Type} [DecidableEq α]
    (l : List (α × β)) (k : α) (v : β)
    (hnd : (l.map Prod.fst).Nodup) (hl : dictGet k l = some v) :
    ∀ p ∈ l, p.1 = k → p.2 = v := by
  induction l with
  | nil => intro p hp; simp at hp
  | cons q rest ih =>
    obtain ⟨a, b⟩ := q
    simp only [List.map_cons, List.nodup_cons] at hnd
    intro p hp hk
    rcases List.mem_cons.mp hp with hhead | htail
    · subst hhead
      simp only at hk
      subst hk
      simp [dictGet] at hl
      exact hl
    · by_cases ha : a = k
      · subst ha
        exact absurd (hk ▸ List.mem_map_of_mem Prod.fst htail) hnd.1
      · simp [dictGet, ha] at hl
        exact ih hnd.2 hl p htail hk

theorem setAttr_ident (obj : ModelInstance) (name : String) (v : Value) :
    (setAttr obj name v).ident = obj.ident := rfl

theorem setAttr_get_self (obj : ModelInstance) (name : String) (v : Value) :
    dictGet name (setAttr obj name v).attrs = some v :=
  dictGet_dictSet_self obj.attrs name v

theorem setAttr_get_ne (obj : ModelInstance) (name fn : String) (v : Value)
    (h : name ≠ fn) :
    dictGet fn (setAttr obj name v).attrs = dictGet fn obj.attrs :=
  dictGet_dictSet_ne obj.attrs name fn v h

theorem validateField_ident (obj : ModelInstance) (gn : String) (g : MetaField) :
    (validateField obj gn g).ident = obj.ident := by
  unfold validateField
  cases g.validator with
  | none => rfl
  | some vf =>
    dsimp only
    by_cases hm : get_attr_fast obj gn Value.missing = Value.missing
    · simp [hm]
    · simp only [hm, if_neg hm]
      cases validate_with_type_check (get_attr_fast obj gn Value.missing) g.type
          (some vf) with
      | ok r => rfl
      | error e => rfl

theorem validateField_get_ne (obj : ModelInstance) (gn fn : String) (g : MetaField)
    (h : gn ≠ fn) :
    dictGet fn (validateField obj gn g).attrs = dictGet fn obj.attrs := by
  unfold validateField
  cases g.validator with
  | none => rfl
  | some vf =>
    dsimp only
    by_cases hm : get_attr_fast obj gn Value.missing = Value.missing
    · simp [hm]
    · simp only [hm, if_neg hm]
      cases validate_with_type_check (get_attr_fast obj gn Value.missing) g.type
          (some vf) with
      | ok r => exact setAttr_get_ne obj gn fn r h
      | error e => rfl

theorem validateField_no_validator (obj : ModelInstance) (fn : String)
    (field : MetaField) (hv : field.validator = none) :
    validateField obj fn field = obj := by
  unfold validateField
  rw [hv]

theorem validateField_failing (obj : ModelInstance) (fn : String)
    (field : MetaField) (vf : ValidatorFn)
    (hv : field.validator = some vf)
    (hfail : ∀ x, ∃ e, vf x = Except.error e) :
    validateField obj fn field = obj := by
  unfold validateField
  rw [hv]
  dsimp only
  by_cases hm : get_attr_fast obj fn Value.missing = Value.missing
  · simp [hm]
  · obtain ⟨e, he⟩ := hfail (get_attr_fast obj fn Value.missing)
    simp [hm, validate_with_type_check, he]

theorem validateObj_get_eq (fields : List (String × MetaField)) (fn : String)
    (h : ∀ p ∈ fields, p.1 = fn → ∀ o : ModelInstance, validateField o p.1 p.2 = o) :
    ∀ obj : ModelInstance,
      dictGet fn (validateObj obj fields).attrs = dictGet fn obj.attrs := by
  induction fields with
  | nil => intro obj; rfl
  | cons p rest ih =>
    intro obj
    have hstep : validateObj obj (p :: rest) = validateObj (validateField obj p.1 p.2) rest := rfl
    rw [hstep]
    rw [ih (fun q hq => h q (List.mem_cons_of_mem p hq))]
    by_cases hp : p.1 = fn
    · rw [h p (List.mem_cons_self p rest) hp]
    · exact validateField_get_ne obj p.1 fn p.2 hp

theorem validateObj_ident (fields : List (String × MetaField)) :
    ∀ obj : ModelInstance, (validateObj obj fields).ident = obj.ident := by
  induction fields with
  | nil => intro obj; rfl
  | cons p rest ih =>
    intro obj
    have hstep : validateObj obj (p :: rest) = validateObj (validateField obj p.1 p.2) rest := rfl
    rw [hstep, ih (validateField obj p.1 p.2), validateField_ident]

theorem serializeObjStep_get_ne (obj : ModelInstance) (en : Bool)
    (acc : List (String × Value) × Nat) (p : String × MetaField) (fn : String)
    (h : p.1 ≠ fn) :
    dictGet fn (serializeObjStep obj en acc p).1 = dictGet fn acc.1 := by
  unfold serializeObjStep
  rcases hs : serializeField obj p.1 p.2 en acc.2 with ⟨ov, c⟩
  cases ov with
  | none => simp
  | some v => simp [dictGet_dictSet_ne acc.1 p.1 fn v h]

theorem serializeObjFrom_get_not_mem (obj : ModelInstance) (en : Bool) (fn : String) :
    ∀ (fields : List (String × MetaField)) (acc : List (String × Value) × Nat),
      fn ∉ fields.map Prod.fst →
      dictGet fn (serializeObjFrom obj fields en acc).1 = dictGet fn acc.1 := by
  intro fields
  induction fields with
  | nil => intro acc h; rfl
  | cons p rest ih =>
    intro acc h
    simp only [List.map_cons, List.mem_cons] at h
    push_neg at h
    have hstep : serializeObjFrom obj (p :: rest) en acc
        = serializeObjFrom obj rest en (serializeObjStep obj en acc p) := rfl
    rw [hstep, ih _ h.2, serializeObjStep_get_ne obj en acc p fn (fun he => h.1 he.symm)]

theorem serializeField_absent (obj : ModelInstance) (fn : String) (field : MetaField)
    (en : Bool) (c : Nat) (h : dictGet fn obj.attrs = none) :
    serializeField obj fn field en c = (none, c) := by
  unfold serializeField
  rw [h]

theorem serializeObjStep_get_absent (obj : ModelInstance) (en : Bool)
    (acc : List (String × Value) × Nat) (p : String × MetaField) (fn : String)
    (h : dictGet fn obj.attrs = none) :
    dictGet fn (serializeObjStep obj en acc p).1 = dictGet fn acc.1 := by
  by_cases hp : p.1 = fn
  · unfold serializeObjStep
    rw [hp, serializeField_absent obj fn p.2 en acc.2 h]
  · exact serializeObjStep_get_ne obj en acc p fn hp

theorem serializeObjFrom_get_absent (obj : ModelInstance) (en : Bool) (fn : String)
    (h : dictGet fn obj.attrs = none) :
    ∀ (fields : List (String × MetaField)) (acc : List (String × Value) × Nat),
      dictGet fn (serializeObjFrom obj fields en acc).1 = dictGet fn acc.1 := by
  intro fields
  induction fields with
  | nil => intro acc; rfl
  | cons p rest ih =>
    intro acc
    have hstep : serializeObjFrom obj (p :: rest) en acc
        = serializeObjFrom obj rest en (serializeObjStep obj en acc p) := rfl
    rw [hstep, ih _, serializeObjStep_get_absent obj en acc p fn h]

theorem serializeField_none_default (obj : ModelInstance) (fn : String)
    (field : MetaField) (d : Factory) (c : Nat)
    (hattr : dictGet fn obj.attrs = some Value.none)
    (hdef : field.default = some d)
    (hser : field.serializer = none) :
    serializeField obj fn field false c = (some (d.run c), c + 1) := by
  unfold serializeField
  rw [hattr]
  simp [serializeResolved, serializeFinal, hdef, hser]

theorem runPoolOp_max (s : MemoryPool × Nat) (op : PoolOp) :
    (runPoolOp s op).1.max_size = s.1.max_size := by
  cases op with
  | acquireOp =>
    show ((s.1.acquire s.2).2.1).max_size = s.1.max_size
    unfold MemoryPool.acquire
    rcases hp : s.1.pool with _ | ⟨i, rest⟩ <;> rfl
  | releaseOp obj =>
    show (s.1.release obj).max_size = s.1.max_size
    unfold MemoryPool.release
    by_cases hc : s.1.pool.length < s.1.max_size <;> simp [hc]
  | clearOp => rfl

theorem runPoolOp_size (s : MemoryPool × Nat) (op : PoolOp)
    (h : s.1.size ≤ s.1.max_size) :
    (runPoolOp s op).1.size ≤ s.1.max_size := by
  cases op with
  | acquireOp =>
    show ((s.1.acquire s.2).2.1).size ≤ s.1.max_size
    unfold MemoryPool.acquire
    rcases hp : s.1.pool with _ | ⟨i, rest⟩
    · exact h
    · have h2 : rest.length + 1 ≤ s.1.max_size := by
        have h3 := h
        rw [MemoryPool.size, hp] at h3
        simpa using h3
      simpa [MemoryPool.size] using Nat.le_of_succ_le h2
  | releaseOp obj =>
    show (s.1.release obj).size ≤ s.1.max_size
    unfold MemoryPool.release
    by_cases hc : s.1.pool.length < s.1.max_size
    · rw [if_pos hc]
      show (stripForPool obj s.1.field_defaults :: s.1.pool).length ≤ s.1.max_size
      simp only [List.length_cons]
      omega
    · simp [hc]; exact h
  | clearOp =>
    show (s.1.clear).size ≤ s.1.max_size
    simp [MemoryPool.clear, MemoryPool.size]

theorem runPoolOps_size (ops : List PoolOp) :
    ∀ s : MemoryPool × Nat, s.1.size ≤ s.1.max_size →
      (runPoolOps s ops).1.size ≤ (runPoolOps s ops).1.max_size ∧
      (runPoolOps s ops).1.max_size = s.1.max_size := by
  induction ops with
  | nil => intro s h; exact ⟨h, rfl⟩
  | cons op rest ih =>
    intro s h
    have hstep : runPoolOps s (op :: rest) = runPoolOps (runPoolOp s op) rest := rfl
    rw [hstep]
    have hsz : (runPoolOp s op).1.size ≤ (runPoolOp s op).1.max_size := by
      rw [runPoolOp_max]
      exact runPoolOp_size s op h
    obtain ⟨h1, h2⟩ := ih (runPoolOp s op) hsz
    exact ⟨h1, h2.trans (runPoolOp_max s op)⟩

theorem roundTrip_size_from_empty (p : MemoryPool) (c : Nat)
    (hp : p.pool = []) (hm : 0 < p.max_size) :
    (roundTrip (p, c)).1.size = 1 ∧ (roundTrip (p, c)).1.max_size = p.max_size := by
  simp [roundTrip, MemoryPool.acquire, MemoryPool.release, MemoryPool.size, hp, hm]

theorem roundTrip_size_one (p : MemoryPool) (c : Nat)
    (h1 : p.size = 1) (hm : 0 < p.max_size) :
    (roundTrip (p, c)).1.size = 1 ∧ (roundTrip (p, c)).1.max_size = p.max_size := by
  rcases hpool : p.pool with _ | ⟨i, rest⟩
  · rw [MemoryPool.size, hpool] at h1
    simp at h1
  · have hrest : rest.length = 0 := by
      rw [MemoryPool.size, hpool] at h1
      simpa using h1
    simp [roundTrip, MemoryPool.acquire, MemoryPool.release, MemoryPool.size,
      hpool, hrest, hm]

theorem roundTrips_size_one (n : Nat) :
    ∀ (p : MemoryPool) (c : Nat), p.size = 1 → 0 < p.max_size →
      (roundTrips (p, c) n).1.size = 1 ∧
      (roundTrips (p, c) n).1.max_size = p.max_size := by
  induction n with
  | zero => intro p c h1 hm; exact ⟨h1, rfl⟩
  | succ k ih =>
    intro p c h1 hm
    obtain ⟨hs, hmax⟩ := roundTrip_size_one p c h1 hm
    have hstep : roundTrips (p, c) (k + 1) = roundTrips (roundTrip (p, c)) k := rfl
    rw [hstep]
    rcases hq : roundTrip (p, c) with ⟨q, c2⟩
    rw [hq] at hs hmax
    obtain ⟨h1q, h2q⟩ := ih q c2 hs (hmax ▸ hm)
    exact ⟨h1q, h2q.trans hmax⟩

/-
Claim theorems.
-/

/-- C1 counterexample: the spec scenario table (an age field with a
default factory and a validator) and an instance with no age attribute
at all.  serialize_batch returns an empty output mapping for the
instance: PyObject_GetAttr raises AttributeError, the broad per-field
except clause skips the field, and the default factory is never
consulted, while the claim demands an output mapping binding age to a
fresh default. -/
theorem c1_absent_attribute_skipped :
    (serialize_batch [{ ident := 0, attrs := [] }] [("age", cAgeField)] false 0).1
      = [[]] := by
  rfl

/-- C1 (amended): in serialize_batch the default path fires when the
attribute is present and holds the None value (coerced to the missing
sentinel), not when the attribute is absent.  With excludeNone false
and no serializer on the field, the output mapping for the instance
binds the field to the value freshly produced by its default factory
at the allocation counter reached after the earlier fields of the
table; an instance whose attribute is absent entirely has the field
skipped (absent from the output mapping). -/
theorem c1_default_for_present_none (t1 t2 : List (String × MetaField))
    (fn : String) (field : MetaField) (d : Factory) (obj : ModelInstance)
    (ctr : Nat)
    (ht2 : fn ∉ t2.map Prod.fst)
    (hattr : dictGet fn obj.attrs = some Value.none)
    (hdef : field.default = some d)
    (hser : field.serializer = none) :
    (∃ m, (serialize_batch [obj] (t1 ++ (fn, field) :: t2) false ctr).1 = [m] ∧
       dictGet fn m
         = some (d.run (serializeObjFrom obj t1 false ([], ctr)).2)) ∧
    ∀ obj2 : ModelInstance, dictGet fn obj2.attrs = none →
      ∃ m2, (serialize_batch [obj2] (t1 ++ (fn, field) :: t2) false ctr).1 = [m2] ∧
        dictGet fn m2 = none := by
  constructor
  · refine ⟨(serializeObj obj (t1 ++ (fn, field) :: t2) false ctr).1, rfl, ?_⟩
    have hsplit : serializeObj obj (t1 ++ (fn, field) :: t2) false ctr
        = serializeObjFrom obj ((fn, field) :: t2) false
            (serializeObjFrom obj t1 false ([], ctr)) := by
      unfold serializeObj serializeObjFrom
      rw [List.foldl_append]
    rw [hsplit]
    rcases hacc : serializeObjFrom obj t1 false ([], ctr) with ⟨m1, c1⟩
    have hfield : serializeObjStep obj false (m1, c1) (fn, field)
        = (dictSet m1 fn (d.run c1), c1 + 1) := by
      unfold serializeObjStep
      rw [show ((fn, field).1 : String) = fn from rfl,
        show ((fn, field).2 : MetaField) = field from rfl,
        show ((m1, c1).2 : Nat) = c1 from rfl,
        serializeField_none_default obj fn field d c1 hattr hdef hser]
    have hstep : serializeObjFrom obj ((fn, field) :: t2) false (m1, c1)
        = serializeObjFrom obj t2 false (serializeObjStep obj false (m1, c1) (fn, field)) := rfl
    rw [hstep, hfield, serializeObjFrom_get_not_mem obj false fn t2 _ ht2,
      dictGet_dictSet_self]
  · intro obj2 h2
    refine ⟨(serializeObj obj2 (t1 ++ (fn, field) :: t2) false ctr).1, rfl, ?_⟩
    unfold serializeObj
    rw [serializeObjFrom_get_absent obj2 false fn h2 (t1 ++ (fn, field) :: t2) ([], ctr)]
    rfl

/-- C1 witness: the amended theorem at the spec scenario field with the
age attribute explicitly None. -/
theorem c1_default_for_present_none_witness :
    (∃ m, (serialize_batch [{ ident := 0, attrs := [("age", Value.none)] }]
          ([] ++ ("age", cAgeField) :: []) false 0).1 = [m] ∧
       dictGet "age" m
         = some (cAgeFactory.run
             (serializeObjFrom { ident := 0, attrs := [("age", Value.none)] }
               [] false ([], 0)).2)) ∧
    ∀ obj2 : ModelInstance, dictGet "age" obj2.attrs = none →
      ∃ m2, (serialize_batch [obj2] ([] ++ ("age", cAgeField) :: []) false 0).1 = [m2] ∧
        dictGet "age" m2 = none :=
  c1_default_for_present_none [] [] "age" cAgeField cAgeFactory
    { ident := 0, attrs := [("age", Value.none)] } 0 (by simp) rfl rfl rfl

/-- C2 (code bug): a pool over a model with one defaulted field x whose
factory returns mutable objects, holding two released instances.  Both
acquires set x to the very same object, the factory itself
(Value.factoryRef 5), because MemoryPool.acquire setattrs the stored
field.default instead of calling produce; the allocation counter stays
0, showing the factory is never invoked, so the two observed default
values are shared, not independent fresh values. -/
theorem c2_pool_acquire_shares_default :
    dictGet "x" cAcquire1.1.attrs = some (Value.factoryRef 5) ∧
    dictGet "x" cAcquire2.1.attrs = some (Value.factoryRef 5) ∧
    cAcquire1.1.attrs = cAcquire2.1.attrs ∧
    cAcquire2.2.2 = 0 := by
  refine ⟨?_, ?_, ?_, rfl⟩ <;> rfl

/-- C3 counterexample: a validator raising RuntimeError "boom".  The
error fast_validate raises carries the message "Validation failed:
boom", which is not the original failure message "boom"; the claim
says the message is the original failure message. -/
theorem c3_message_is_wrapped :
    fast_validate (Value.int 1) cBoomField
      = Except.error (PyErr.valueError "Validation failed: boom") ∧
    "Validation failed: boom" ≠ "boom" := by
  exact ⟨rfl, by decide⟩

/-- C3 (amended): whenever the configured validator fails with any
exception e, fast_validate raises ValueError (the ValidationError of
the spec taxonomy) whose message is "Validation failed: " followed by
the original failure message str(e); the original exception type never
reaches the caller. -/
theorem c3_validation_error_carries_message (value : Value) (field : MetaField)
    (vf : ValidatorFn) (e : PyErr)
    (hv : field.validator = some vf) (he : vf value = Except.error e) :
    fast_validate value field
      = Except.error (PyErr.valueError ("Validation failed: " ++ msgOf e)) := by
  unfold fast_validate
  rw [hv]
  simp only [validate_with_type_check, he]

/-- C3 witness: the amended theorem at the boom validator. -/
theorem c3_validation_error_carries_message_witness :
    fast_validate (Value.int 1) cBoomField
      = Except.error (PyErr.valueError
          ("Validation failed: " ++ msgOf (PyErr.other "RuntimeError" "boom"))) :=
  c3_validation_error_carries_message (Value.int 1) cBoomField cBoomValidator
    (PyErr.other "RuntimeError" "boom") rfl rfl

/-- C4: with a table field fn whose validator raises on every input,
validate_batch keeps the attribute stored under fn unchanged on every
instance (in order, over the same instances, witnessed by the
preserved identities), while a direct fast_validate on the same field
raises ValueError (the ValidationFault of the spec taxonomy). -/
theorem c4_batch_swallows_validator_fault (objects : List ModelInstance)
    (fields : List (String × MetaField)) (fn : String) (field : MetaField)
    (vf : ValidatorFn)
    (hnd : (fields.map Prod.fst).Nodup)
    (hl : dictGet fn fields = some field)
    (hv : field.validator = some vf)
    (hfail : ∀ x, ∃ e, vf x = Except.error e) :
    (validate_batch objects fields).map (fun o => dictGet fn o.attrs)
      = objects.map (fun o => dictGet fn o.attrs) ∧
    (validate_batch objects fields).map ModelInstance.ident
      = objects.map ModelInstance.ident ∧
    ∀ x : Value, ∃ msg, fast_validate x field
      = Except.error (PyErr.valueError msg) := by
  have hskip : ∀ p ∈ fields, p.1 = fn →
      ∀ o : ModelInstance, validateField o p.1 p.2 = o := by
    intro p hp hk o
    have hpf : p.2 = field := dictGet_unique fields fn field hnd hl p hp hk
    rw [hpf]
    exact validateField_failing o p.1 field vf hv hfail
  refine ⟨?_, ?_, ?_⟩
  · unfold validate_batch
    rw [List.map_map]
    exact listMapCongr _ _ objects
      (fun obj _ => validateObj_get_eq fields fn hskip obj)
  · unfold validate_batch
    rw [List.map_map]
    exact listMapCongr _ _ objects (fun obj _ => validateObj_ident fields obj)
  · intro x
    obtain ⟨e, he⟩ := hfail x
    refine ⟨"Validation failed: " ++ msgOf e, ?_⟩
    unfold fast_validate
    rw [hv]
    simp only [validate_with_type_check, he]

/-- C4 witness: the batch over the spec scenario instance with age -5
and the always-raising field. -/
theorem c4_batch_swallows_validator_fault_witness :
    (validate_batch [cInstNeg] [("age", cRaiseField)]).map
        (fun o => dictGet "age" o.attrs)
      = [cInstNeg].map (fun o => dictGet "age" o.attrs) ∧
    (validate_batch [cInstNeg] [("age", cRaiseField)]).map ModelInstance.ident
      = [cInstNeg].map ModelInstance.ident ∧
    ∀ x : Value, ∃ msg, fast_validate x cRaiseField
      = Except.error (PyErr.valueError msg) :=
  c4_batch_swallows_validator_fault [cInstNeg] [("age", cRaiseField)] "age"
    cRaiseField cRaiseValidator (by simp) rfl rfl
    (fun x => ⟨PyErr.other "TypeError" "rejected", rfl⟩)

/-- C5 counterexample: two release(acquire()) round trips on an empty
pool of capacity 2 leave size 1, not 2 as the claim demands: the
second acquire pops the instance the first round trip released, so
sequential round trips never grow the pool past one. -/
theorem c5_round_trips_leave_one :
    (roundTrips (mkMemoryPool [] 2, 0) 2).1.size = 1 ∧
    (roundTrips (mkMemoryPool [] 2, 0) 2).1.size ≠ 2 := by
  exact ⟨rfl, by decide⟩

/-- C5 (amended): the free count never exceeds max_size over any
interleaving of acquire, release and clear starting within capacity;
with max_size 0, release never adds an instance; and n+1 sequential
release(acquire()) round trips on a freshly constructed pool with
positive capacity leave size exactly 1 (each round trip after the
first re-acquires the instance the previous one released), not n+1. -/
theorem c5_pool_size_bounds :
    (∀ (p : MemoryPool) (ctr : Nat) (ops : List PoolOp),
        p.size ≤ p.max_size → (runPoolOps (p, ctr) ops).1.size ≤ p.max_size) ∧
    (∀ (p : MemoryPool) (obj : ModelInstance), p.max_size = 0 →
        p.release obj = p) ∧
    (∀ (model_fields : List (String × MetaField)) (m c n : Nat), 0 < m →
        (roundTrips (mkMemoryPool model_fields m, c) (n + 1)).1.size = 1) := by
  refine ⟨?_, ?_, ?_⟩
  · intro p ctr ops h
    obtain ⟨h1, h2⟩ := runPoolOps_size ops (p, ctr) h
    rw [h2] at h1
    exact h1
  · intro p obj h0
    unfold MemoryPool.release
    rw [h0]
    simp
  · intro mf m c n hm
    have h0 : (mkMemoryPool mf m).pool = [] := rfl
    have hm2 : 0 < (mkMemoryPool mf m).max_size := hm
    obtain ⟨hs, hmax⟩ := roundTrip_size_from_empty (mkMemoryPool mf m) c h0 hm2
    have hstep : roundTrips (mkMemoryPool mf m, c) (n + 1)
        = roundTrips (roundTrip (mkMemoryPool mf m, c)) n := rfl
    rw [hstep]
    rcases hq : roundTrip (mkMemoryPool mf m, c) with ⟨q, c2⟩
    rw [hq] at hs hmax
    exact (roundTrips_size_one n q c2 hs (hmax ▸ hm2)).1

/-- C5 witness: the amended theorem at concrete pools. -/
theorem c5_pool_size_bounds_witness :
    (runPoolOps (mkMemoryPool [] 1, 0)
        [PoolOp.releaseOp { ident := 3, attrs := [] },
         PoolOp.releaseOp { ident := 4, attrs := [] },
         PoolOp.acquireOp]).1.size ≤ (mkMemoryPool [] 1).max_size ∧
    (mkMemoryPool [] 0).release { ident := 3, attrs := [] } = mkMemoryPool [] 0 ∧
    (roundTrips (mkMemoryPool [] 3, 0) 4).1.size = 1 :=
  ⟨c5_pool_size_bounds.1 (mkMemoryPool [] 1) 0 _ (by decide),
   c5_pool_size_bounds.2.1 (mkMemoryPool [] 0) _ rfl,
   c5_pool_size_bounds.2.2 [] 3 0 3 (by decide)⟩

/-- C6: descriptor cache coherence.  When the field has no validator or
the validator accepts v returning it unchanged, a set followed by a
get on the same instance returns v (the set updated the cache entry
for that identity).  After clear_cache, the next get takes no cache
entry: it re-reads the shadow attribute when present, and otherwise
regenerates the default (producing it, storing the shadow attribute
and advancing the allocation counter) when the field has one. -/
theorem c6_descriptor_cache_coherence (d : OptimizedDescriptor)
    (obj : ModelInstance) (v : Value) (ctr ctr2 : Nat)
    (hacc : d.field.validator = none ∨
      ∃ vf, d.field.validator = some vf ∧ vf v = Except.ok v) :
    (∃ d1 o1, descSet d obj v = Except.ok (d1, o1) ∧
       descGet d1 o1 ctr = Except.ok (v, d1, o1, ctr)) ∧
    (∀ w, dictGet ("_" ++ d.name) obj.attrs = some w →
       descGet (clear_cache d) obj ctr2
         = Except.ok (w, { d with cache := [(obj.ident, w)] }, obj, ctr2)) ∧
    (∀ f, dictGet ("_" ++ d.name) obj.attrs = none → d.field.default = some f →
       descGet (clear_cache d) obj ctr2
         = Except.ok (f.run ctr2, { d with cache := [(obj.ident, f.run ctr2)] },
             setAttr obj ("_" ++ d.name) (f.run ctr2), ctr2 + 1)) := by
  refine ⟨?_, ?_, ?_⟩
  · rcases hacc with hv | ⟨vf, hv, hok⟩
    · refine ⟨{ d with cache := dictSet d.cache obj.ident v },
        setAttr obj ("_" ++ d.name) v, ?_, ?_⟩
      · unfold descSet
        rw [hv]
      · unfold descGet
        rw [setAttr_ident, dictGet_dictSet_self]
    · refine ⟨{ d with cache := dictSet d.cache obj.ident v },
        setAttr obj ("_" ++ d.name) v, ?_, ?_⟩
      · unfold descSet
        rw [hv]
        simp only [hok]
      · unfold descGet
        rw [setAttr_ident, dictGet_dictSet_self]
  · intro w hw
    unfold descGet
    have hc : dictGet obj.ident (clear_cache d).cache = (none : Option Value) := rfl
    have hw2 : dictGet ("_" ++ (clear_cache d).name) obj.attrs = some w := hw
    rw [hc, hw2]
    rfl
  · intro f hno hdef
    unfold descGet
    have hc : dictGet obj.ident (clear_cache d).cache = (none : Option Value) := rfl
    have hno2 : dictGet ("_" ++ (clear_cache d).name) obj.attrs
        = (none : Option Value) := hno
    have hf : (clear_cache d).field.default = some f := hdef
    rw [hc, hno2, hf]
    rfl

/-- C6 witness: the coherence theorem at a fresh descriptor over a
field with a default and no validator, and a bare instance. -/
theorem c6_descriptor_cache_coherence_witness :
    (∃ d1 o1, descSet cDesc cObjDesc (Value.int 7) = Except.ok (d1, o1) ∧
       descGet d1 o1 0 = Except.ok (Value.int 7, d1, o1, 0)) ∧
    (∀ w, dictGet ("_" ++ cDesc.name) cObjDesc.attrs = some w →
       descGet (clear_cache cDesc) cObjDesc 0
         = Except.ok (w, { cDesc with cache := [(cObjDesc.ident, w)] }, cObjDesc, 0)) ∧
    (∀ f, dictGet ("_" ++ cDesc.name) cObjDesc.attrs = none →
       cDesc.field.default = some f →
       descGet (clear_cache cDesc) cObjDesc 0
         = Except.ok (f.run 0, { cDesc with cache := [(cObjDesc.ident, f.run 0)] },
             setAttr cObjDesc ("_" ++ cDesc.name) (f.run 0), 0 + 1)) :=
  c6_descriptor_cache_coherence cDesc cObjDesc (Value.int 7) 0 0 (Or.inl rfl)

/-- C7: dict semantics of the type-validator registry: after
register(t, v), lookup(t) is exactly v (last write wins), and lookup
of any different type s with no registration of its own, in
particular a strict subtype of t, stays None: the lookup is by exact
key, with no inheritance walk. -/
theorem c7_registry_exact_lookup (reg : List (TypeRef × ValidatorFn))
    (t s : TypeRef) (v : ValidatorFn)
    (hs : s ≠ t) (hnone : get_type_validator reg s = none) :
    get_type_validator (register_type_validator reg t v) t = some v ∧
    get_type_validator (register_type_validator reg t v) s = none := by
  constructor
  · exact dictGet_dictSet_self reg t v
  · rw [show get_type_validator (register_type_validator reg t v) s
        = dictGet s (dictSet reg t v) from rfl,
      dictGet_dictSet_ne reg t s v (Ne.symm hs)]
    exact hnone

/-- C7 witness: register type 0 into the empty registry; lookups of 0
and of the unregistered type 1. -/
theorem c7_registry_exact_lookup_witness :
    get_type_validator (register_type_validator [] 0 cRegValidator) 0
      = some cRegValidator ∧
    get_type_validator (register_type_validator [] 0 cRegValidator) 1 = none :=
  c7_registry_exact_lookup [] 0 1 cRegValidator (by decide) rfl

/-- C8: identity pass-through: fast_validate with no validator
configured and fast_serialize with no serializer configured return the
value unchanged. -/
theorem c8_identity_passthrough (x : Value) (f g : MetaField)
    (hv : f.validator = none) (hs : g.serializer = none) :
    fast_validate x f = Except.ok x ∧ fast_serialize x g = Except.ok x := by
  constructor
  · unfold fast_validate
    rw [hv]
  · unfold fast_serialize
    rw [hs]

/-- C8 witness: the identity law at the fully unconfigured field. -/
theorem c8_identity_passthrough_witness :
    fast_validate (Value.int 3) cPlainField = Except.ok (Value.int 3) ∧
    fast_serialize (Value.int 3) cPlainField = Except.ok (Value.int 3) :=
  c8_identity_passthrough (Value.int 3) cPlainField cPlainField rfl rfl

/-- C9: acquire on a pool whose free list is empty performs a raw
allocation: a fresh identity with no attributes at all (the model
class initializer does not run and no field default is applied), the
pool unchanged and the allocation counter advanced. -/
theorem c9_acquire_empty_raw_alloc (p : MemoryPool) (ctr : Nat)
    (h : p.pool = []) :
    p.acquire ctr = ({ ident := ctr, attrs := [] }, p, ctr + 1) := by
  unfold MemoryPool.acquire
  rw [h]

/-- C9 witness: acquire on a freshly constructed pool. -/
theorem c9_acquire_empty_raw_alloc_witness :
    (mkMemoryPool [] 5).acquire 0
      = ({ ident := 0, attrs := [] }, mkMemoryPool [] 5, 1) :=
  c9_acquire_empty_raw_alloc (mkMemoryPool [] 5) 0 rfl

/-- C10: validate_batch writes nothing under a table field whose
validator is absent: on every instance, position by position, the
attribute stored under that field name is the same after the call as
before. -/
theorem c10_validate_batch_frame (objects : List ModelInstance)
    (fields : List (String × MetaField)) (fn : String) (field : MetaField)
    (hnd : (fields.map Prod.fst).Nodup)
    (hl : dictGet fn fields = some field)
    (hv : field.validator = none) :
    (validate_batch objects fields).map (fun o => dictGet fn o.attrs)
      = objects.map (fun o => dictGet fn o.attrs) := by
  have hskip : ∀ p ∈ fields, p.1 = fn →
      ∀ o : ModelInstance, validateField o p.1 p.2 = o := by
    intro p hp hk o
    have hpf : p.2 = field := dictGet_unique fields fn field hnd hl p hp hk
    rw [hpf]
    exact validateField_no_validator o p.1 field hv
  unfold validate_batch
  rw [List.map_map]
  exact listMapCongr _ _ objects
    (fun obj _ => validateObj_get_eq fields fn hskip obj)

/-- C10 witness: the frame theorem at a one-field table with no
validator. -/
theorem c10_validate_batch_frame_witness :
    (validate_batch [cFrameInst] [("a", cFrameField)]).map
        (fun o => dictGet "a" o.attrs)
      = [cFrameInst].map (fun o => dictGet "a" o.attrs) :=
  c10_validate_batch_frame [cFrameInst] [("a", cFrameField)] "a" cFrameField
    (by simp) rfl rfl
